import Mathlib

/-!
Verification of `src/cs121.py`: a repeated two-party game between an AI
company (choosing a safety-investment level) and an auditor (choosing
whether to pay for a check and wager on detecting bias).

The Python code draws randoms sequentially from a shared generator.  We
embed it shallowly: each round's random draws are an explicit `RoundRand`
record (two fair boolean choices and two uniform draws in `[0,1)`,
modelled as rationals), and `simulate_game` consumes a list of them, one
per round.  Python floats are modelled as rationals; the numeric
structure of the claims is exact and does not depend on rounding.
-/

namespace CS121

/-- The keyword parameters of `simulate_game` (minus `n_rounds`, which is
the length of the list of per-round random draws). -/
structure SimulationParameters where
  cost_high_safety : ℚ
  cost_low_safety : ℚ
  prob_bias_high : ℚ
  prob_bias_low : ℚ
  auditor_check_cost : ℚ
  wager_amount : ℚ
  fine_amount : ℚ
deriving DecidableEq

/-- The random draws one round of the Python loop consumes:
`random.choice([True, False])` for the safety choice, then for the audit
choice, then `random.random()` for the signal draw, and (consumed only
when the signal fires) `random.random()` for the ground-truth redraw. -/
structure RoundRand where
  ai_invests_high : Bool
  auditor_pays_for_check : Bool
  signalDraw : ℚ
  biasDraw : ℚ
deriving DecidableEq

/-- The dictionary appended to `history` each round. -/
structure RoundRecord where
  round : ℕ
  ai_invests_high : Bool
  auditor_pays_for_check : Bool
  signal_bias : Bool
  wager_placed : Bool
  ai_safety_effect : ℚ
  auditor_check_effect : ℚ
  ai_wager_effect : ℚ
  auditor_wager_effect : ℚ
  incremental_ai : ℚ
  incremental_auditor : ℚ
  cumulative_ai : ℚ
  cumulative_auditor : ℚ
deriving DecidableEq

instance : Inhabited RoundRecord :=
  ⟨⟨0, false, false, false, false, 0, 0, 0, 0, 0, 0, 0, 0⟩⟩

/-- The bias probability selected by the safety choice
(`prob_bias` in the Python body). -/
def roundProbBias (p : SimulationParameters) (r : RoundRand) : ℚ :=
  if r.ai_invests_high then p.prob_bias_high else p.prob_bias_low

/-- The detection probability the signal draw is compared against:
`prob_bias * 0.9 + (1 - prob_bias) * 0.1` with a paid check, the raw
`prob_bias` without. -/
def detectionProbability (prob_bias : ℚ) (audited : Bool) : ℚ :=
  if audited then prob_bias * (9/10) + (1 - prob_bias) * (1/10) else prob_bias

/-- The detection probability of one round, as used in `simulate_game`. -/
def roundDetection (p : SimulationParameters) (r : RoundRand) : ℚ :=
  detectionProbability (roundProbBias p r) r.auditor_pays_for_check

/-- The body of the `for round_i in range(n_rounds)` loop: one round of
the game, producing the `RoundRecord` appended to the history.  `round_i`
is the 0-based loop index; `cum_ai`, `cum_auditor` are the running
cumulative totals before this round. -/
def simulateRound (p : SimulationParameters) (r : RoundRand) (round_i : ℕ)
    (cum_ai cum_auditor : ℚ) : RoundRecord :=
  let prob_bias := roundProbBias p r
  let ai_safety_effect : ℚ :=
    if r.ai_invests_high then -p.cost_high_safety else -p.cost_low_safety
  let auditor_check_effect : ℚ :=
    if r.auditor_pays_for_check then -p.auditor_check_cost else 0
  let signal_bias : Bool := decide (r.signalDraw < roundDetection p r)
  let is_biased : Bool := decide (r.biasDraw < prob_bias)
  let auditor_wager_effect : ℚ :=
    if signal_bias then
      if is_biased then -p.wager_amount + (p.fine_amount + p.wager_amount)
      else -p.wager_amount
    else 0
  let ai_wager_effect : ℚ :=
    if signal_bias then
      if is_biased then -p.fine_amount else p.wager_amount * (1/2)
    else 0
  let wager_placed : Bool := signal_bias
  let incremental_ai := ai_safety_effect + ai_wager_effect
  let incremental_auditor := auditor_check_effect + auditor_wager_effect
  { round := round_i + 1
    ai_invests_high := r.ai_invests_high
    auditor_pays_for_check := r.auditor_pays_for_check
    signal_bias := signal_bias
    wager_placed := wager_placed
    ai_safety_effect := ai_safety_effect
    auditor_check_effect := auditor_check_effect
    ai_wager_effect := ai_wager_effect
    auditor_wager_effect := auditor_wager_effect
    incremental_ai := incremental_ai
    incremental_auditor := incremental_auditor
    cumulative_ai := cum_ai + incremental_ai
    cumulative_auditor := cum_auditor + incremental_auditor }

/-- The simulation loop: consumes the remaining per-round draws, carrying
the 0-based round index and both cumulative totals, and returns the
history produced plus the final totals. -/
def simRounds (p : SimulationParameters) :
    List RoundRand → ℕ → ℚ → ℚ → List RoundRecord × ℚ × ℚ
  | [], _, cum_ai, cum_auditor => ([], cum_ai, cum_auditor)
  | r :: rs, i, cum_ai, cum_auditor =>
    let record := simulateRound p r i cum_ai cum_auditor
    let rest := simRounds p rs (i + 1) record.cumulative_ai record.cumulative_auditor
    (record :: rest.1, rest.2.1, rest.2.2)

/-- `simulate_game`: runs `rands.length` rounds from zero cumulative
totals, returning `(history, cumulative_ai, cumulative_auditor)`. -/
def simulate_game (p : SimulationParameters) (rands : List RoundRand) :
    List RoundRecord × ℚ × ℚ :=
  simRounds p rands 0 0 0

/-- One group's two outcome lists (`{'ai': [], 'auditor': []}`). -/
structure GroupLists where
  ai : List ℚ
  auditor : List ℚ
deriving DecidableEq

/-- The `buckets` dictionary of `summarize_buckets`: for each of the
three decisions, the true-group and false-group outcome lists. -/
structure Buckets where
  invHighT : GroupLists
  invHighF : GroupLists
  checkT : GroupLists
  checkF : GroupLists
  wagerT : GroupLists
  wagerF : GroupLists
deriving DecidableEq

def initBuckets : Buckets :=
  ⟨⟨[], []⟩, ⟨[], []⟩, ⟨[], []⟩, ⟨[], []⟩, ⟨[], []⟩, ⟨[], []⟩⟩

/-- The body of the `for round_info in history` loop of
`summarize_buckets`: appends this round's values to the appropriate
group lists.  For the first two decisions both groups collect the full
incremental outcomes; for `wager_placed` the false group collects a
literal `0` for each actor. -/
def stepBuckets (b : Buckets) (r : RoundRecord) : Buckets where
  invHighT :=
    if r.ai_invests_high then
      ⟨b.invHighT.ai ++ [r.incremental_ai], b.invHighT.auditor ++ [r.incremental_auditor]⟩
    else b.invHighT
  invHighF :=
    if r.ai_invests_high then b.invHighF
    else
      ⟨b.invHighF.ai ++ [r.incremental_ai], b.invHighF.auditor ++ [r.incremental_auditor]⟩
  checkT :=
    if r.auditor_pays_for_check then
      ⟨b.checkT.ai ++ [r.incremental_ai], b.checkT.auditor ++ [r.incremental_auditor]⟩
    else b.checkT
  checkF :=
    if r.auditor_pays_for_check then b.checkF
    else
      ⟨b.checkF.ai ++ [r.incremental_ai], b.checkF.auditor ++ [r.incremental_auditor]⟩
  wagerT :=
    if r.wager_placed then
      ⟨b.wagerT.ai ++ [r.incremental_ai], b.wagerT.auditor ++ [r.incremental_auditor]⟩
    else b.wagerT
  wagerF :=
    if r.wager_placed then b.wagerF
    else ⟨b.wagerF.ai ++ [(0 : ℚ)], b.wagerF.auditor ++ [(0 : ℚ)]⟩

/-- The filled `buckets` dictionary after the collection loop. -/
def collectBuckets (history : List RoundRecord) : Buckets :=
  history.foldl stepBuckets initBuckets

/-- `sum(xs) / len(xs) if xs else 0`: the mean with the empty-list guard
of `summarize_buckets`. -/
def avgOrZero (xs : List ℚ) : ℚ :=
  if xs.isEmpty then 0 else xs.sum / xs.length

/-- One entry of the summary dictionary:
`{'count': ..., 'avg_ai_outcome': ..., 'avg_auditor_outcome': ...}`.
The count is `len(outcomes['ai'])`, as in the source. -/
structure GroupSummary where
  count : ℕ
  avg_ai_outcome : ℚ
  avg_auditor_outcome : ℚ
deriving DecidableEq

def summarizeGroup (g : GroupLists) : GroupSummary :=
  ⟨g.ai.length, avgOrZero g.ai, avgOrZero g.auditor⟩

/-- The full summary returned by `summarize_buckets`: one `GroupSummary`
per decision per outcome group. -/
structure BucketSummary where
  invHighT : GroupSummary
  invHighF : GroupSummary
  checkT : GroupSummary
  checkF : GroupSummary
  wagerT : GroupSummary
  wagerF : GroupSummary
deriving DecidableEq

/-- `summarize_buckets`: collect the bucket lists from the history, then
compute count and mean outcome per group. -/
def summarize_buckets (history : List RoundRecord) : BucketSummary :=
  let b := collectBuckets history
  ⟨summarizeGroup b.invHighT, summarizeGroup b.invHighF,
   summarizeGroup b.checkT, summarizeGroup b.checkF,
   summarizeGroup b.wagerT, summarizeGroup b.wagerF⟩

/-! Helper lemmas about the simulator. -/

lemma simRounds_length (p : SimulationParameters) :
    ∀ (rs : List RoundRand) (i : ℕ) (ca cu : ℚ),
      (simRounds p rs i ca cu).1.length = rs.length
  | [], _, _, _ => rfl
  | _ :: rs, i, ca, cu => by
    simp only [simRounds, List.length_cons]
    rw [simRounds_length p rs]

lemma simRounds_mem {p : SimulationParameters} {x : RoundRecord} :
    ∀ (rs : List RoundRand) (i : ℕ) (ca cu : ℚ),
      x ∈ (simRounds p rs i ca cu).1 →
      ∃ r j a u, x = simulateRound p r j a u
  | [], _, _, _, hx => by simp [simRounds] at hx
  | r :: rs, i, ca, cu, hx => by
    simp only [simRounds, List.mem_cons] at hx
    rcases hx with h | h
    · exact ⟨r, i, ca, cu, h⟩
    · exact simRounds_mem rs (i + 1) _ _ h

lemma simRounds_round (p : SimulationParameters) :
    ∀ (rs : List RoundRand) (i : ℕ) (ca cu : ℚ) (j : ℕ), j < rs.length →
      (((simRounds p rs i ca cu).1.getD j default).round = i + j + 1)
  | [], _, _, _, j, hj => by simp at hj
  | r :: rs, i, ca, cu, 0, _ => by
    simp only [simRounds, List.getD_cons_zero]
    rfl
  | r :: rs, i, ca, cu, j + 1, hj => by
    simp only [simRounds, List.getD_cons_succ]
    have hj' : j < rs.length := by simpa using hj
    rw [simRounds_round p rs (i + 1) _ _ j hj']
    omega

lemma simRounds_chain (p : SimulationParameters) :
    ∀ (rs : List RoundRand) (i : ℕ) (ca cu : ℚ) (j : ℕ), j < rs.length →
      (((simRounds p rs i ca cu).1.getD j default).cumulative_ai =
        (if j = 0 then ca
         else ((simRounds p rs i ca cu).1.getD (j - 1) default).cumulative_ai) +
          ((simRounds p rs i ca cu).1.getD j default).incremental_ai) ∧
      (((simRounds p rs i ca cu).1.getD j default).cumulative_auditor =
        (if j = 0 then cu
         else ((simRounds p rs i ca cu).1.getD (j - 1) default).cumulative_auditor) +
          ((simRounds p rs i ca cu).1.getD j default).incremental_auditor)
  | [], _, _, _, j, hj => by simp at hj
  | r :: rs, i, ca, cu, 0, _ => by
    simp only [simRounds, List.getD_cons_zero, if_pos rfl]
    exact ⟨rfl, rfl⟩
  | r :: rs, i, ca, cu, j + 1, hj => by
    have hj' : j < rs.length := by simpa using hj
    have ih := simRounds_chain p rs (i + 1)
      (simulateRound p r i ca cu).cumulative_ai
      (simulateRound p r i ca cu).cumulative_auditor j hj'
    cases j with
    | zero =>
      simpa only [simRounds, List.getD_cons_succ, if_pos rfl,
        Nat.add_sub_cancel, List.getD_cons_zero, if_neg (Nat.succ_ne_zero 0)]
        using ih
    | succ k =>
      simpa only [simRounds, List.getD_cons_succ, if_neg (Nat.succ_ne_zero k),
        Nat.add_sub_cancel, if_neg (Nat.succ_ne_zero (k + 1))] using ih

lemma simRounds_final (p : SimulationParameters) :
    ∀ (rs : List RoundRand) (i : ℕ) (ca cu : ℚ),
      ((simRounds p rs i ca cu).1 = [] →
        (simRounds p rs i ca cu).2.1 = ca ∧ (simRounds p rs i ca cu).2.2 = cu) ∧
      (∀ x, (simRounds p rs i ca cu).1.getLast? = some x →
        (simRounds p rs i ca cu).2.1 = x.cumulative_ai ∧
        (simRounds p rs i ca cu).2.2 = x.cumulative_auditor)
  | [], _, _, _ => by
    refine ⟨fun _ => ⟨rfl, rfl⟩, fun x hx => ?_⟩
    simp [simRounds] at hx
  | r :: rs, i, ca, cu => by
    have ih := simRounds_final p rs (i + 1)
      (simulateRound p r i ca cu).cumulative_ai
      (simulateRound p r i ca cu).cumulative_auditor
    refine ⟨fun hnil => ?_, fun x hx => ?_⟩
    · exact absurd hnil (by simp [simRounds])
    · rcases hrest : (simRounds p rs (i + 1)
        (simulateRound p r i ca cu).cumulative_ai
        (simulateRound p r i ca cu).cumulative_auditor).1 with _ | ⟨y, ys⟩
      · have hx0 : x = simulateRound p r i ca cu := by
          simp only [simRounds] at hx
          rw [hrest] at hx
          simpa [List.getLast?] using hx.symm
        have h1 := (ih.1 hrest)
        simp only [simRounds]
        rw [hx0]
        exact h1
      · have hlast : (simRounds p rs (i + 1)
            (simulateRound p r i ca cu).cumulative_ai
            (simulateRound p r i ca cu).cumulative_auditor).1.getLast? = some x := by
          simp only [simRounds] at hx
          rw [hrest] at hx ⊢
          simpa [List.getLast?_cons_cons] using hx
        have h2 := ih.2 x hlast
        simp only [simRounds]
        exact h2

/-! Helper lemmas about the aggregator. -/

lemma foldl_buckets_field (proj : Buckets → List ℚ) (cond : RoundRecord → Bool)
    (val : RoundRecord → ℚ)
    (hstep : ∀ b r, proj (stepBuckets b r) =
      proj b ++ (if cond r then [val r] else [])) :
    ∀ (h : List RoundRecord) (b : Buckets),
      proj (List.foldl stepBuckets b h) = proj b ++ (h.filter cond).map val
  | [], b => by simp
  | r :: h, b => by
    rw [List.foldl_cons, foldl_buckets_field proj cond val hstep h _, hstep]
    cases hc : cond r <;> simp [List.filter_cons, hc]

lemma collect_invHighT_ai (h : List RoundRecord) :
    (collectBuckets h).invHighT.ai =
      (h.filter (fun r => r.ai_invests_high)).map (fun r => r.incremental_ai) := by
  have key := foldl_buckets_field (fun b => b.invHighT.ai)
    (fun r => r.ai_invests_high) (fun r => r.incremental_ai)
    (fun b r => by by_cases hr : r.ai_invests_high <;> simp [stepBuckets, hr])
    h initBuckets
  simpa [collectBuckets, initBuckets] using key

lemma collect_invHighT_auditor (h : List RoundRecord) :
    (collectBuckets h).invHighT.auditor =
      (h.filter (fun r => r.ai_invests_high)).map (fun r => r.incremental_auditor) := by
  have key := foldl_buckets_field (fun b => b.invHighT.auditor)
    (fun r => r.ai_invests_high) (fun r => r.incremental_auditor)
    (fun b r => by by_cases hr : r.ai_invests_high <;> simp [stepBuckets, hr])
    h initBuckets
  simpa [collectBuckets, initBuckets] using key

lemma collect_invHighF_ai (h : List RoundRecord) :
    (collectBuckets h).invHighF.ai =
      (h.filter (fun r => !r.ai_invests_high)).map (fun r => r.incremental_ai) := by
  have key := foldl_buckets_field (fun b => b.invHighF.ai)
    (fun r => !r.ai_invests_high) (fun r => r.incremental_ai)
    (fun b r => by by_cases hr : r.ai_invests_high <;> simp [stepBuckets, hr])
    h initBuckets
  simpa [collectBuckets, initBuckets] using key

lemma collect_invHighF_auditor (h : List RoundRecord) :
    (collectBuckets h).invHighF.auditor =
      (h.filter (fun r => !r.ai_invests_high)).map (fun r => r.incremental_auditor) := by
  have key := foldl_buckets_field (fun b => b.invHighF.auditor)
    (fun r => !r.ai_invests_high) (fun r => r.incremental_auditor)
    (fun b r => by by_cases hr : r.ai_invests_high <;> simp [stepBuckets, hr])
    h initBuckets
  simpa [collectBuckets, initBuckets] using key

lemma collect_checkT_ai (h : List RoundRecord) :
    (collectBuckets h).checkT.ai =
      (h.filter (fun r => r.auditor_pays_for_check)).map (fun r => r.incremental_ai) := by
  have key := foldl_buckets_field (fun b => b.checkT.ai)
    (fun r => r.auditor_pays_for_check) (fun r => r.incremental_ai)
    (fun b r => by by_cases hr : r.auditor_pays_for_check <;> simp [stepBuckets, hr])
    h initBuckets
  simpa [collectBuckets, initBuckets] using key

lemma collect_checkT_auditor (h : List RoundRecord) :
    (collectBuckets h).checkT.auditor =
      (h.filter (fun r => r.auditor_pays_for_check)).map (fun r => r.incremental_auditor) := by
  have key := foldl_buckets_field (fun b => b.checkT.auditor)
    (fun r => r.auditor_pays_for_check) (fun r => r.incremental_auditor)
    (fun b r => by by_cases hr : r.auditor_pays_for_check <;> simp [stepBuckets, hr])
    h initBuckets
  simpa [collectBuckets, initBuckets] using key

lemma collect_checkF_ai (h : List RoundRecord) :
    (collectBuckets h).checkF.ai =
      (h.filter (fun r => !r.auditor_pays_for_check)).map (fun r => r.incremental_ai) := by
  have key := foldl_buckets_field (fun b => b.checkF.ai)
    (fun r => !r.auditor_pays_for_check) (fun r => r.incremental_ai)
    (fun b r => by by_cases hr : r.auditor_pays_for_check <;> simp [stepBuckets, hr])
    h initBuckets
  simpa [collectBuckets, initBuckets] using key

lemma collect_checkF_auditor (h : List RoundRecord) :
    (collectBuckets h).checkF.auditor =
      (h.filter (fun r => !r.auditor_pays_for_check)).map (fun r => r.incremental_auditor) := by
  have key := foldl_buckets_field (fun b => b.checkF.auditor)
    (fun r => !r.auditor_pays_for_check) (fun r => r.incremental_auditor)
    (fun b r => by by_cases hr : r.auditor_pays_for_check <;> simp [stepBuckets, hr])
    h initBuckets
  simpa [collectBuckets, initBuckets] using key

lemma collect_wagerT_ai (h : List RoundRecord) :
    (collectBuckets h).wagerT.ai =
      (h.filter (fun r => r.wager_placed)).map (fun r => r.incremental_ai) := by
  have key := foldl_buckets_field (fun b => b.wagerT.ai)
    (fun r => r.wager_placed) (fun r => r.incremental_ai)
    (fun b r => by by_cases hr : r.wager_placed <;> simp [stepBuckets, hr])
    h initBuckets
  simpa [collectBuckets, initBuckets] using key

lemma collect_wagerT_auditor (h : List RoundRecord) :
    (collectBuckets h).wagerT.auditor =
      (h.filter (fun r => r.wager_placed)).map (fun r => r.incremental_auditor) := by
  have key := foldl_buckets_field (fun b => b.wagerT.auditor)
    (fun r => r.wager_placed) (fun r => r.incremental_auditor)
    (fun b r => by by_cases hr : r.wager_placed <;> simp [stepBuckets, hr])
    h initBuckets
  simpa [collectBuckets, initBuckets] using key

lemma collect_wagerF_ai (h : List RoundRecord) :
    (collectBuckets h).wagerF.ai =
      (h.filter (fun r => !r.wager_placed)).map (fun _ => (0 : ℚ)) := by
  have key := foldl_buckets_field (fun b => b.wagerF.ai)
    (fun r => !r.wager_placed) (fun _ => (0 : ℚ))
    (fun b r => by by_cases hr : r.wager_placed <;> simp [stepBuckets, hr])
    h initBuckets
  simpa [collectBuckets, initBuckets] using key

lemma collect_wagerF_auditor (h : List RoundRecord) :
    (collectBuckets h).wagerF.auditor =
      (h.filter (fun r => !r.wager_placed)).map (fun _ => (0 : ℚ)) := by
  have key := foldl_buckets_field (fun b => b.wagerF.auditor)
    (fun r => !r.wager_placed) (fun _ => (0 : ℚ))
    (fun b r => by by_cases hr : r.wager_placed <;> simp [stepBuckets, hr])
    h initBuckets
  simpa [collectBuckets, initBuckets] using key

lemma avgOrZero_const_zero (l : List ℚ) :
    avgOrZero (l.map (fun _ => (0 : ℚ))) = 0 := by
  cases l with
  | nil => rfl
  | cons x xs =>
    have hsum : ((x :: xs).map (fun _ => (0 : ℚ))).sum = 0 := by
      simp [List.sum_map_eq_nsmul_single]
    simp [avgOrZero, hsum]

lemma length_filter_add_length_filter_not (cond : RoundRecord → Bool) :
    ∀ h : List RoundRecord,
      (h.filter cond).length + (h.filter (fun r => !cond r)).length = h.length
  | [] => rfl
  | r :: h => by
    have ih := length_filter_add_length_filter_not cond h
    by_cases hr : cond r <;> simp [List.filter_cons, hr] <;> omega

/-! Per-round record lemmas. -/

lemma simulateRound_incremental (p : SimulationParameters) (r : RoundRand)
    (i : ℕ) (ca cu : ℚ) :
    (simulateRound p r i ca cu).incremental_ai =
      (simulateRound p r i ca cu).ai_safety_effect +
        (simulateRound p r i ca cu).ai_wager_effect ∧
    (simulateRound p r i ca cu).incremental_auditor =
      (simulateRound p r i ca cu).auditor_check_effect +
        (simulateRound p r i ca cu).auditor_wager_effect :=
  ⟨rfl, rfl⟩

lemma simulateRound_wager (p : SimulationParameters) (r : RoundRand)
    (i : ℕ) (ca cu : ℚ) :
    (simulateRound p r i ca cu).wager_placed =
      (simulateRound p r i ca cu).signal_bias ∧
    ((simulateRound p r i ca cu).wager_placed = false →
      (simulateRound p r i ca cu).ai_wager_effect = 0 ∧
      (simulateRound p r i ca cu).auditor_wager_effect = 0) := by
  refine ⟨rfl, fun hw => ?_⟩
  simp only [simulateRound] at hw ⊢
  simp [hw]

lemma avgOrZero_replicate_zero (n : ℕ) : avgOrZero (List.replicate n (0 : ℚ)) = 0 := by
  cases n with
  | zero => rfl
  | succ k => simp [avgOrZero, List.sum_replicate]

lemma avgOrZero_of_len0 (xs : List ℚ) (hx : xs.length = 0) : avgOrZero xs = 0 := by
  cases xs with
  | nil => rfl
  | cons y ys => simp at hx

/-! Concrete inputs used by witnesses and counterexamples. -/

/-- Parameters with `fine_amount = 1000`, `wager_amount = 50`, and
`prob_bias_high = 1` so that a high-safety unaudited round signals with
certainty and the ground-truth redraw confirms. -/
def exampleParams : SimulationParameters := ⟨100, 40, 1, 3/10, 5, 50, 1000⟩

/-- High safety, no check: detection probability is `prob_bias_high = 1`,
the signal fires (`1/2 < 1`), and the redraw confirms (`1/2 < 1`):
a true-positive wager round. -/
def exampleTP : RoundRand := ⟨true, false, 1/2, 1/2⟩

/-- Low safety, with check: detection probability is
`3/10 * 9/10 + 7/10 * 1/10 = 17/50`, and the draw `9/10` is above it:
no signal, no wager. -/
def exampleNoSig : RoundRand := ⟨false, true, 9/10, 1/2⟩

/-- Parameters with `prob_bias_high = 0`, for the detection-probability
floor scenario. -/
def exampleParamsZero : SimulationParameters := ⟨100, 40, 0, 3/10, 5, 50, 1000⟩

/-- High safety, with check, under `exampleParamsZero`: the detection
probability is the false-positive floor `0.1`. -/
def exampleAudited : RoundRand := ⟨true, true, 1/2, 1/2⟩

/-! Claim theorems. -/

/-- C1, counterexample: with `fine_amount = 1000`, `wager_amount = 50`, a
true-positive round (signal fires and the ground-truth redraw confirms
bias) records an auditor wager effect of `1000 = fine_amount`, not
`1050 = fine_amount + wager_amount` as the claim states. -/
theorem C1_counterexample :
    ((simulate_game exampleParams [exampleTP]).1.getD 0 default).signal_bias = true ∧
    exampleTP.biasDraw < roundProbBias exampleParams exampleTP ∧
    exampleParams.fine_amount = 1000 ∧
    exampleParams.wager_amount = 50 ∧
    ((simulate_game exampleParams [exampleTP]).1.getD 0 default).ai_wager_effect = -1000 ∧
    ((simulate_game exampleParams [exampleTP]).1.getD 0 default).auditor_wager_effect = 1000 ∧
    ((simulate_game exampleParams [exampleTP]).1.getD 0 default).auditor_wager_effect ≠
      exampleParams.fine_amount + exampleParams.wager_amount := by
  norm_num [exampleParams, exampleTP, simulate_game, simRounds, simulateRound,
    roundDetection, detectionProbability, roundProbBias]

/-- C1, amended: in a true-positive round the auditor's recorded wager
effect is `-wager_amount + (fine_amount + wager_amount)`, i.e. a net of
exactly `fine_amount` (1000 in the concrete scenario, not 1050); the
company's wager effect is exactly `-fine_amount`. -/
theorem C1_theorem (p : SimulationParameters) (r : RoundRand) (i : ℕ) (ca cu : ℚ)
    (hsig : (simulateRound p r i ca cu).signal_bias = true)
    (hbias : r.biasDraw < roundProbBias p r) :
    (simulateRound p r i ca cu).auditor_wager_effect =
      -p.wager_amount + (p.fine_amount + p.wager_amount) ∧
    (simulateRound p r i ca cu).auditor_wager_effect = p.fine_amount ∧
    (simulateRound p r i ca cu).ai_wager_effect = -p.fine_amount := by
  simp only [simulateRound] at hsig ⊢
  have hb : decide (r.biasDraw < roundProbBias p r) = true := decide_eq_true hbias
  simp [hsig, hb]

/-- Witness for C1: the concrete true-positive round satisfies both
hypotheses and the auditor's wager effect evaluates to `fine_amount`. -/
theorem C1_witness :
    (simulateRound exampleParams exampleTP 0 0 0).signal_bias = true ∧
    exampleTP.biasDraw < roundProbBias exampleParams exampleTP ∧
    (simulateRound exampleParams exampleTP 0 0 0).auditor_wager_effect =
      exampleParams.fine_amount ∧
    (simulateRound exampleParams exampleTP 0 0 0).ai_wager_effect =
      -exampleParams.fine_amount := by
  have hs : (simulateRound exampleParams exampleTP 0 0 0).signal_bias = true := by
    norm_num [exampleParams, exampleTP, simulateRound, roundDetection,
      detectionProbability, roundProbBias]
  have hb : exampleTP.biasDraw < roundProbBias exampleParams exampleTP := by
    norm_num [exampleParams, exampleTP, roundProbBias]
  have h := C1_theorem exampleParams exampleTP 0 0 0 hs hb
  exact ⟨hs, hb, h.2.1, h.2.2⟩

/-- C2: in every simulated history, each record's incremental effects are
the sums of its per-actor components, and the cumulative totals are
prefix sums of the incrementals (`cumulative[0] = 0` before the first
round). -/
theorem C2_theorem (p : SimulationParameters) (rands : List RoundRand) (j : ℕ)
    (hj : j < ((simulate_game p rands).1).length) :
    ((simulate_game p rands).1.getD j default).incremental_ai =
      ((simulate_game p rands).1.getD j default).ai_safety_effect +
        ((simulate_game p rands).1.getD j default).ai_wager_effect ∧
    ((simulate_game p rands).1.getD j default).incremental_auditor =
      ((simulate_game p rands).1.getD j default).auditor_check_effect +
        ((simulate_game p rands).1.getD j default).auditor_wager_effect ∧
    ((simulate_game p rands).1.getD j default).cumulative_ai =
      (if j = 0 then 0
       else ((simulate_game p rands).1.getD (j - 1) default).cumulative_ai) +
        ((simulate_game p rands).1.getD j default).incremental_ai ∧
    ((simulate_game p rands).1.getD j default).cumulative_auditor =
      (if j = 0 then 0
       else ((simulate_game p rands).1.getD (j - 1) default).cumulative_auditor) +
        ((simulate_game p rands).1.getD j default).incremental_auditor := by
  have hlen : j < rands.length := by rwa [simulate_game, simRounds_length] at hj
  have hmem : (simulate_game p rands).1.getD j default ∈ (simulate_game p rands).1 := by
    rw [List.getD_eq_getElem _ _ hj]
    exact List.getElem_mem hj
  obtain ⟨r, k, a, u, hx⟩ := simRounds_mem rands 0 0 0 hmem
  have hincr := simulateRound_incremental p r k a u
  have hchain := simRounds_chain p rands 0 0 0 j hlen
  rw [hx]
  exact ⟨hincr.1, hincr.2, by rw [← hx]; exact hchain.1, by rw [← hx]; exact hchain.2⟩

/-- Witness for C2: in the concrete two-round history, record 1's
cumulative totals extend record 0's by its incrementals. -/
theorem C2_witness :
    1 < ((simulate_game exampleParams [exampleTP, exampleNoSig]).1).length ∧
    ((simulate_game exampleParams [exampleTP, exampleNoSig]).1.getD 1 default).cumulative_ai =
      ((simulate_game exampleParams [exampleTP, exampleNoSig]).1.getD 0 default).cumulative_ai +
        ((simulate_game exampleParams [exampleTP, exampleNoSig]).1.getD 1 default).incremental_ai := by
  have hl : 1 < ((simulate_game exampleParams [exampleTP, exampleNoSig]).1).length := by
    rw [simulate_game, simRounds_length]
    norm_num
  have h := C2_theorem exampleParams [exampleTP, exampleNoSig] 1 hl
  refine ⟨hl, ?_⟩
  have := h.2.2.1
  simpa using this

/-- C3: in every record of every simulated history, `wager_placed`
coincides with `signal_bias`, and when no wager is placed both wager
effect fields are exactly 0. -/
theorem C3_theorem (p : SimulationParameters) (rands : List RoundRand)
    (x : RoundRecord) (hx : x ∈ (simulate_game p rands).1) :
    x.wager_placed = x.signal_bias ∧
    (x.wager_placed = false → x.ai_wager_effect = 0 ∧ x.auditor_wager_effect = 0) := by
  obtain ⟨r, k, a, u, hx'⟩ := simRounds_mem rands 0 0 0 hx
  rw [hx']
  exact simulateRound_wager p r k a u

/-- Witness for C3: the no-signal round's record has `wager_placed`
equal to `signal_bias` (both false) and zero wager effects. -/
theorem C3_witness :
    ((simulate_game exampleParams [exampleNoSig]).1.getD 0 default).wager_placed =
      ((simulate_game exampleParams [exampleNoSig]).1.getD 0 default).signal_bias ∧
    ((simulate_game exampleParams [exampleNoSig]).1.getD 0 default).wager_placed = false ∧
    ((simulate_game exampleParams [exampleNoSig]).1.getD 0 default).ai_wager_effect = 0 := by
  have hmem : (simulate_game exampleParams [exampleNoSig]).1.getD 0 default ∈
      (simulate_game exampleParams [exampleNoSig]).1 := by
    simp [simulate_game, simRounds]
  have h := C3_theorem exampleParams [exampleNoSig] _ hmem
  have hw : ((simulate_game exampleParams [exampleNoSig]).1.getD 0 default).wager_placed
      = false := by
    norm_num [exampleParams, exampleNoSig, simulate_game, simRounds, simulateRound,
      roundDetection, detectionProbability, roundProbBias]
  exact ⟨h.1, hw, (h.2 hw).1⟩

/-- C4: for any history, the `wager_placed = false` group's mean payoffs
are exactly 0 for both actors: the aggregator appends a literal 0 per
non-wager round, never that round's actual incrementals. -/
theorem C4_theorem (h : List RoundRecord) :
    (summarize_buckets h).wagerF.avg_ai_outcome = 0 ∧
    (summarize_buckets h).wagerF.avg_auditor_outcome = 0 := by
  constructor <;>
    simp [summarize_buckets, summarizeGroup, collect_wagerF_ai,
      collect_wagerF_auditor, avgOrZero_const_zero, avgOrZero_replicate_zero]

/-- C5: for any history of N rounds and each of the three decisions, the
true-group count plus the false-group count equals N. -/
theorem C5_theorem (h : List RoundRecord) :
    (summarize_buckets h).invHighT.count + (summarize_buckets h).invHighF.count
      = h.length ∧
    (summarize_buckets h).checkT.count + (summarize_buckets h).checkF.count
      = h.length ∧
    (summarize_buckets h).wagerT.count + (summarize_buckets h).wagerF.count
      = h.length := by
  refine ⟨?_, ?_, ?_⟩ <;>
    simp [summarize_buckets, summarizeGroup, collect_invHighT_ai, collect_invHighF_ai,
      collect_checkT_ai, collect_checkF_ai, collect_wagerT_ai, collect_wagerF_ai,
      length_filter_add_length_filter_not]

/-- C6: the aggregator never divides by zero: any group with count 0
reports mean 0 for both actors; and with N = 0 the simulator returns an
empty history with zero totals while the aggregator returns six groups
with count 0 and means 0. -/
theorem C6_theorem (p : SimulationParameters) (h : List RoundRecord) :
    ((summarize_buckets h).invHighT.count = 0 →
      (summarize_buckets h).invHighT.avg_ai_outcome = 0 ∧
      (summarize_buckets h).invHighT.avg_auditor_outcome = 0) ∧
    ((summarize_buckets h).invHighF.count = 0 →
      (summarize_buckets h).invHighF.avg_ai_outcome = 0 ∧
      (summarize_buckets h).invHighF.avg_auditor_outcome = 0) ∧
    ((summarize_buckets h).checkT.count = 0 →
      (summarize_buckets h).checkT.avg_ai_outcome = 0 ∧
      (summarize_buckets h).checkT.avg_auditor_outcome = 0) ∧
    ((summarize_buckets h).checkF.count = 0 →
      (summarize_buckets h).checkF.avg_ai_outcome = 0 ∧
      (summarize_buckets h).checkF.avg_auditor_outcome = 0) ∧
    ((summarize_buckets h).wagerT.count = 0 →
      (summarize_buckets h).wagerT.avg_ai_outcome = 0 ∧
      (summarize_buckets h).wagerT.avg_auditor_outcome = 0) ∧
    ((summarize_buckets h).wagerF.count = 0 →
      (summarize_buckets h).wagerF.avg_ai_outcome = 0 ∧
      (summarize_buckets h).wagerF.avg_auditor_outcome = 0) ∧
    simulate_game p [] = ([], 0, 0) ∧
    summarize_buckets [] =
      ⟨⟨0, 0, 0⟩, ⟨0, 0, 0⟩, ⟨0, 0, 0⟩, ⟨0, 0, 0⟩, ⟨0, 0, 0⟩, ⟨0, 0, 0⟩⟩ := by
  refine ⟨?_, ?_, ?_, ?_, ?_, ?_, rfl, rfl⟩ <;>
    · intro hc
      constructor <;>
        · apply avgOrZero_of_len0
          simp only [summarize_buckets, summarizeGroup] at hc
          simp_all [summarize_buckets, summarizeGroup,
            collect_invHighT_ai, collect_invHighT_auditor,
            collect_invHighF_ai, collect_invHighF_auditor,
            collect_checkT_ai, collect_checkT_auditor,
            collect_checkF_ai, collect_checkF_auditor,
            collect_wagerT_ai, collect_wagerT_auditor,
            collect_wagerF_ai, collect_wagerF_auditor]

/-- Witness for C6: with the empty history, the wager true-group has
count 0 and both its means are 0; the simulator returns zero totals. -/
theorem C6_witness :
    (summarize_buckets ([] : List RoundRecord)).wagerT.count = 0 ∧
    (summarize_buckets ([] : List RoundRecord)).wagerT.avg_ai_outcome = 0 ∧
    (summarize_buckets ([] : List RoundRecord)).wagerT.avg_auditor_outcome = 0 ∧
    simulate_game exampleParams [] = ([], 0, 0) := by
  have h := C6_theorem exampleParams ([] : List RoundRecord)
  have hc : (summarize_buckets ([] : List RoundRecord)).wagerT.count = 0 := rfl
  have hm := h.2.2.2.2.1 hc
  exact ⟨hc, hm.1, hm.2, h.2.2.2.2.2.2.1⟩

/-- C7: the detection probability is `prob_bias*0.9 + (1-prob_bias)*0.1`
when the auditor pays for the check and the raw `prob_bias` otherwise;
`signal_bias` holds iff the uniform draw is below it; and with
`prob_bias_high = 0`, high investment and auditing it is exactly 0.1. -/
theorem C7_theorem (p : SimulationParameters) (r : RoundRand) (i : ℕ) (ca cu : ℚ) :
    (r.auditor_pays_for_check = true →
      roundDetection p r =
        roundProbBias p r * (9/10) + (1 - roundProbBias p r) * (1/10)) ∧
    (r.auditor_pays_for_check = false → roundDetection p r = roundProbBias p r) ∧
    ((simulateRound p r i ca cu).signal_bias = true ↔
      r.signalDraw < roundDetection p r) ∧
    (p.prob_bias_high = 0 → r.ai_invests_high = true →
      r.auditor_pays_for_check = true → roundDetection p r = 1/10) := by
  refine ⟨fun ha => ?_, fun ha => ?_, ?_, fun h0 hI ha => ?_⟩
  · simp [roundDetection, detectionProbability, ha]
  · simp [roundDetection, detectionProbability, ha]
  · simp [simulateRound]
  · simp [roundDetection, detectionProbability, roundProbBias, ha, hI, h0]

/-- Witness for C7: under `exampleParamsZero` (zero high-safety bias
probability), the audited high-safety round's detection probability is
exactly 1/10. -/
theorem C7_witness :
    exampleAudited.auditor_pays_for_check = true ∧
    exampleParamsZero.prob_bias_high = 0 ∧
    roundDetection exampleParamsZero exampleAudited = 1/10 := by
  have h := (C7_theorem exampleParamsZero exampleAudited 0 0 0).2.2.2
    rfl rfl rfl
  exact ⟨rfl, rfl, h⟩

/-- C8: for the `ai_invests_high` and `auditor_pays_for_check` decisions,
both groups collect each round's full combined incrementals for both
actors (and the summary means are the means of those full incrementals),
with no zeroing of the false group. -/
theorem C8_theorem (h : List RoundRecord) :
    (collectBuckets h).invHighT.ai =
      (h.filter (fun r => r.ai_invests_high)).map (fun r => r.incremental_ai) ∧
    (collectBuckets h).invHighT.auditor =
      (h.filter (fun r => r.ai_invests_high)).map (fun r => r.incremental_auditor) ∧
    (collectBuckets h).invHighF.ai =
      (h.filter (fun r => !r.ai_invests_high)).map (fun r => r.incremental_ai) ∧
    (collectBuckets h).invHighF.auditor =
      (h.filter (fun r => !r.ai_invests_high)).map (fun r => r.incremental_auditor) ∧
    (collectBuckets h).checkT.ai =
      (h.filter (fun r => r.auditor_pays_for_check)).map (fun r => r.incremental_ai) ∧
    (collectBuckets h).checkT.auditor =
      (h.filter (fun r => r.auditor_pays_for_check)).map (fun r => r.incremental_auditor) ∧
    (collectBuckets h).checkF.ai =
      (h.filter (fun r => !r.auditor_pays_for_check)).map (fun r => r.incremental_ai) ∧
    (collectBuckets h).checkF.auditor =
      (h.filter (fun r => !r.auditor_pays_for_check)).map (fun r => r.incremental_auditor) ∧
    (summarize_buckets h).invHighF.avg_ai_outcome =
      avgOrZero ((h.filter (fun r => !r.ai_invests_high)).map (fun r => r.incremental_ai)) ∧
    (summarize_buckets h).checkF.avg_auditor_outcome =
      avgOrZero ((h.filter (fun r => !r.auditor_pays_for_check)).map
        (fun r => r.incremental_auditor)) :=
  ⟨collect_invHighT_ai h, collect_invHighT_auditor h,
   collect_invHighF_ai h, collect_invHighF_auditor h,
   collect_checkT_ai h, collect_checkT_auditor h,
   collect_checkF_ai h, collect_checkF_auditor h,
   by simp [summarize_buckets, summarizeGroup, collect_invHighF_ai],
   by simp [summarize_buckets, summarizeGroup, collect_checkF_auditor]⟩

/-- C9: for every parameter set and list of per-round draws, the history
has exactly one entry per round and the `round` field of entry j is
j + 1 (rounds are numbered 1..N in order). -/
theorem C9_theorem (p : SimulationParameters) (rands : List RoundRand) :
    (simulate_game p rands).1.length = rands.length ∧
    ∀ j, j < rands.length →
      ((simulate_game p rands).1.getD j default).round = j + 1 := by
  refine ⟨simRounds_length p rands 0 0 0, fun j hj => ?_⟩
  have h := simRounds_round p rands 0 0 0 j hj
  simpa [simulate_game] using h

/-- Witness for C9: a concrete one-round history has length 1 and its
single record is round 1. -/
theorem C9_witness :
    (simulate_game exampleParams [exampleTP]).1.length = 1 ∧
    ((simulate_game exampleParams [exampleTP]).1.getD 0 default).round = 1 := by
  have h := C9_theorem exampleParams [exampleTP]
  exact ⟨h.1, h.2 0 (by norm_num)⟩

/-- C10: the two final totals returned by `simulate_game` equal the last
record's cumulative totals when the history is non-empty, and are both 0
when it is empty. -/
theorem C10_theorem (p : SimulationParameters) (rands : List RoundRand) :
    ((simulate_game p rands).1 = [] →
      (simulate_game p rands).2.1 = 0 ∧ (simulate_game p rands).2.2 = 0) ∧
    (∀ x, (simulate_game p rands).1.getLast? = some x →
      (simulate_game p rands).2.1 = x.cumulative_ai ∧
      (simulate_game p rands).2.2 = x.cumulative_auditor) :=
  simRounds_final p rands 0 0 0

/-- Witness for C10: the empty run returns totals (0, 0), and a one-round
run returns the single record's cumulative totals. -/
theorem C10_witness :
    (simulate_game exampleParams []).2.1 = 0 ∧
    (simulate_game exampleParams []).2.2 = 0 ∧
    (simulate_game exampleParams [exampleTP]).2.1 =
      ((simulate_game exampleParams [exampleTP]).1.getD 0 default).cumulative_ai ∧
    (simulate_game exampleParams [exampleTP]).2.2 =
      ((simulate_game exampleParams [exampleTP]).1.getD 0 default).cumulative_auditor := by
  have h0 := (C10_theorem exampleParams []).1 rfl
  have h1 := (C10_theorem exampleParams [exampleTP]).2
    ((simulate_game exampleParams [exampleTP]).1.getD 0 default) rfl
  exact ⟨h0.1, h0.2, h1.1, h1.2⟩

end CS121
